import Mathlib

/-!
Verification of the update-check orchestration engine of
`cosmic-applet-package-updater` (`src/package-updater/src/package_manager.rs`).

The Rust code is shallowly embedded: pure parsing functions become Lean
functions over `String` / `List Char`; effectful code (`check_updates`,
`check_nixos_flakes`) becomes a pure function of an explicit environment that
supplies the outcomes of its external effects (lock acquisitions, command
invocations), together with a trace of the externally visible actions it
performs.  Rust byte-index string slicing, which can panic on non-UTF-8-boundary
indices, is modelled with `Option` (`none` = panic).
-/

set_option maxRecDepth 10000

/-- Package manager types supported by the updater applet
(`enum PackageManager`). -/
inductive PackageManager where
  | Pacman
  | Paru
  | Yay
  | Apt
  | Dnf
  | Zypper
  | Apk
  | Flatpak
  | NixOS
deriving DecidableEq, Repr

/-- `PackageManager::supports_aur`: only the AUR helpers paru and yay. -/
def PackageManager.supports_aur : PackageManager → Bool
  | .Paru | .Yay => true
  | _ => false

/-- `struct PackageUpdate` — one available package update. -/
structure PackageUpdate where
  name : String
  current_version : String
  new_version : String
  is_aur : Bool
deriving DecidableEq, Repr

/-- `struct UpdateInfo` — aggregate result of one update check. -/
structure UpdateInfo where
  total_updates : Nat
  official_updates : Nat
  aur_updates : Nat
  packages : List PackageUpdate
deriving DecidableEq, Repr

/-- `UpdateInfo::new` — the freshly constructed zero-update value. -/
def UpdateInfo.new : UpdateInfo :=
  { total_updates := 0, official_updates := 0, aur_updates := 0, packages := [] }

/-! ### String helpers mirroring the Rust std-library operations used -/

/-- Rust `str::split_whitespace`: split on runs of whitespace, no empty
tokens.  (The claims only involve ASCII whitespace, where `Char.isWhitespace`
agrees with Rust's Unicode definition.) -/
def splitWS (s : String) : List String :=
  ((s.data.splitOnP (fun c => c.isWhitespace)).filter (fun l => ¬ l.isEmpty)).map
    (fun l => l.asString)

/-- Rust `str::trim`: drop whitespace from both ends. -/
def trimStr (s : String) : String :=
  (((s.data.dropWhile (fun c => c.isWhitespace)).reverse.dropWhile
      (fun c => c.isWhitespace)).reverse).asString

/-- Rust `str::starts_with` on a literal pattern. -/
def strStartsWith (s pat : String) : Bool :=
  pat.data.isPrefixOf s.data

/-- `pat` occurs as a contiguous sublist of the argument. -/
def isInfixList (pat : List Char) : List Char → Bool
  | [] => pat.isEmpty
  | c :: rest => pat.isPrefixOf (c :: rest) || isInfixList pat rest

/-- Rust `str::contains` on a literal pattern (substring test). -/
def containsStr (s pat : String) : Bool :=
  isInfixList pat.data s.data

/-- Rust `str::lines`: split at `\n`, drop an optional final empty line, and
strip one trailing `\r` from each line. -/
def rustLines (s : String) : List String :=
  let parts := s.data.splitOn '\n'
  let parts := if parts.getLast? = some [] then parts.dropLast else parts
  parts.map (fun l =>
    (if l.getLast? = some '\r' then l.dropLast else l).asString)

/-- The suffix of `l` strictly after the first occurrence of `pat`
(Rust `str::find` followed by slicing past the pattern); `none` when `pat`
does not occur. -/
def afterInfix (pat : List Char) : List Char → Option (List Char)
  | [] => if pat.isEmpty then some [] else none
  | c :: rest =>
    if pat.isPrefixOf (c :: rest) then some ((c :: rest).drop pat.length)
    else afterInfix pat rest

/-- Rust `str::parse::<usize>()`: optional leading `+`, then one or more
decimal digits, value below `2^64`. -/
def rustParseUsize (s : String) : Option Nat :=
  let l := match s.data with
    | '+' :: t => t
    | l => l
  if l ≠ [] ∧ l.all (fun c => c.isDigit) then
    let v := l.foldl (fun n c => n * 10 + (c.toNat - 48)) 0
    if v < 2 ^ 64 then some v else none
  else none

/-! ### The per-line output parser (`UpdateChecker::parse_package_line`) -/

/-- The header/noise-line filter at the top of `parse_package_line`. -/
def isNoiseLine (line : String) : Bool :=
  strStartsWith line "Listing..." || strStartsWith line "Done" ||
  strStartsWith line "WARNING:" || strStartsWith line "S |" ||
  strStartsWith line "--+" || (trimStr line).isEmpty

/-- Extraction of the old version from an `[upgradable from: X]` marker
(shared by the apt and apk branches of `parse_package_line`). -/
def bracketFrom (line : String) : String :=
  match afterInfix "[upgradable from: ".data line.data with
  | some rest =>
    if rest.elem ']' then (rest.takeWhile (fun c => c ≠ ']')).asString
    else "unknown"
  | none => "unknown"

/-- The name part of an apk `name-version` token: everything before the last
`-` (Rust `str::rfind`), or the whole token if there is no `-`. -/
def beforeLastDash (l : List Char) : List Char :=
  ((l.reverse.dropWhile (fun c => c ≠ '-')).drop 1).reverse

/-- `UpdateChecker::parse_package_line`: map one line of update-tool output to
a `PackageUpdate`, or `none` for noise / lines not matching the manager's
grammar. -/
def parse_package_line (pm : PackageManager) (line : String) (is_aur : Bool) :
    Option PackageUpdate :=
  if isNoiseLine line then none
  else
    match pm with
    | .Pacman | .Paru | .Yay =>
      -- "package 1.0.0-1 -> 1.0.1-1" or "package 1.0.1-1"
      if containsStr line " -> " then
        match splitWS line with
        | t0 :: t1 :: t2 :: t3 :: _ =>
          if t2 = "->" then some ⟨t0, t1, t3, is_aur⟩ else none
        | _ => none
      else
        match splitWS line with
        | t0 :: t1 :: _ => some ⟨t0, "unknown", t1, is_aur⟩
        | _ => none
    | .Apt =>
      -- "package/suite version arch [upgradable from: old-version]"
      if containsStr line "[upgradable from:" then
        let name := ((line.data.splitOn '/').headD []).asString
        let parts := splitWS line
        let new_version := (parts.get? 1).getD "unknown"
        some ⟨name, bracketFrom line, new_version, false⟩
      else none
    | .Dnf =>
      -- "package.arch version repo"
      match splitWS line with
      | p0 :: p1 :: _ =>
        some ⟨((p0.data.splitOn '.').headD []).asString, "unknown", p1, false⟩
      | _ => none
    | .Zypper =>
      -- pipe-delimited table row
      match (line.data.splitOn '|').map List.asString with
      | _ :: p1 :: _ :: p3 :: _ => some ⟨trimStr p1, "unknown", trimStr p3, false⟩
      | _ => none
    | .Apk =>
      -- "package-version [upgradable from: old-version]"
      if containsStr line "[upgradable from:" then
        match splitWS line with
        | p0 :: rest =>
          let name :=
            if p0.data.elem '-' then (beforeLastDash p0.data).asString else p0
          some ⟨name, bracketFrom line, rest.headD "unknown", false⟩
        | [] => none
      else none
    | .Flatpak =>
      -- tab-delimited: name, app-id, version, branch, remote
      match (line.data.splitOn '\t').map List.asString with
      | p0 :: _ :: p2 :: _ => some ⟨p0, "unknown", p2, false⟩
      | _ => none
    | .NixOS => none

/-! ### Exit-code interpretation (`UpdateChecker::parse_update_output`) -/

/-- The captured result of one external command invocation:
`status = none` models termination by signal (`ExitStatus::code() == None`). -/
structure CmdOutput where
  status : Option Int
  stdout : String
  stderr : String
deriving DecidableEq, Repr

/-- The line loop at the end of `parse_update_output`. -/
def parse_stdout_lines (pm : PackageManager) (stdout : String) (is_aur : Bool) :
    List PackageUpdate :=
  (rustLines stdout).filterMap (fun l => parse_package_line pm l is_aur)

/-- `UpdateChecker::parse_update_output`, after the command has produced
`out`.  The Rust body checks `!status.success()` first and falls through to
the shared parsing loop in three places; here each fall-through is the
explicit `parse_stdout_lines` call. -/
def parse_update_output (pm : PackageManager) (cmd : String) (out : CmdOutput)
    (is_aur : Bool) : Except String (List PackageUpdate) :=
  if out.status = some 0 then
    .ok (parse_stdout_lines pm out.stdout is_aur)
  else
    let exit_code : Int := out.status.getD (-1)
    if (cmd = "checkupdates" ∧ exit_code = 2) ∨
        ((cmd = "paru" ∨ cmd = "yay") ∧ exit_code = 1) ∨
        (cmd = "dnf" ∧ exit_code = 100) then
      if cmd = "dnf" ∧ exit_code = 100 then
        -- dnf exit code 100 means updates ARE available, continue parsing
        .ok (parse_stdout_lines pm out.stdout is_aur)
      else
        -- no updates available, special success case
        .ok []
    else if trimStr out.stdout = "" then
      .error ("Failed to check for updates (exit " ++ toString exit_code ++
        "): " ++ out.stderr)
    else
      -- nonzero exit but non-empty stdout: attempt the parse anyway
      .ok (parse_stdout_lines pm out.stdout is_aur)

/-! ### The orchestration (`UpdateChecker::check_updates`) -/

/-- Externally visible actions of one `check_updates` invocation: phase
command attempts and the peer-notification sync-file write. -/
inductive CheckEvent where
  | officialCmd
  | aurCmd
  | notifySync
deriving DecidableEq, Repr

/-- Environment of one `check_updates` invocation: outcomes of the two lock
acquisition attempts and of the (at most two) attempts of each phase. -/
structure CheckEnv where
  lock1 : Except String Unit
  lock2 : Except String Unit
  official1 : Except String (List PackageUpdate)
  official2 : Except String (List PackageUpdate)
  aur1 : Except String (List PackageUpdate)
  aur2 : Except String (List PackageUpdate)

/-- Step 1 of `check_updates` after the lock: official check with one
retry-after-delay; a double failure degrades to zero results. -/
def officialPhase (env : CheckEnv) : List PackageUpdate × List CheckEvent :=
  match env.official1 with
  | .ok l => (l, [.officialCmd])
  | .error _ =>
    match env.official2 with
    | .ok l => (l, [.officialCmd, .officialCmd])
    | .error _ => ([], [.officialCmd, .officialCmd])

/-- Step 2 of `check_updates`: AUR check with the same one-retry-then-continue
policy. -/
def aurPhase (env : CheckEnv) : List PackageUpdate × List CheckEvent :=
  match env.aur1 with
  | .ok l => (l, [.aurCmd])
  | .error _ =>
    match env.aur2 with
    | .ok l => (l, [.aurCmd, .aurCmd])
    | .error _ => ([], [.aurCmd, .aurCmd])

/-- The body of `check_updates` once the lock is held.  The Rust code mutates
`UpdateInfo::new()` in place: each successful phase sets its count to the
phase list's length and extends `packages`; `total_updates` is set from the
final `packages.len()` only after both phases, and the sync file is touched
before returning `Ok`. -/
def check_updates_locked (env : CheckEnv) (pm : PackageManager)
    (include_aur : Bool) : Except String UpdateInfo × List CheckEvent :=
  let offL := (officialPhase env).1
  let aurRes :=
    if include_aur && pm.supports_aur then aurPhase env else ([], [])
  let packages := offL ++ aurRes.1
  (.ok { total_updates := packages.length, official_updates := offL.length,
         aur_updates := aurRes.1.length, packages := packages },
   (officialPhase env).2 ++ aurRes.2 ++ [CheckEvent.notifySync])

/-- `UpdateChecker::check_updates`: acquire the lock (retrying once after a
fixed delay), then run both phases; if both acquisitions fail the whole
operation fails with "Update check already in progress" and nothing else is
performed. -/
def check_updates (env : CheckEnv) (pm : PackageManager) (include_aur : Bool) :
    Except String UpdateInfo × List CheckEvent :=
  match env.lock1 with
  | .ok _ => check_updates_locked env pm include_aur
  | .error _ =>
    match env.lock2 with
    | .ok _ => check_updates_locked env pm include_aur
    | .error e => (.error ("Update check already in progress: " ++ e), [])

/-- The official-phase list actually charged to the result (phase outcome
after the one retry, degraded to `[]` on double failure). -/
def officialOutcome (env : CheckEnv) : List PackageUpdate :=
  (officialPhase env).1

/-- The AUR-phase list actually charged to the result; `[]` when the AUR
phase is not run. -/
def aurOutcome (env : CheckEnv) (pm : PackageManager) (include_aur : Bool) :
    List PackageUpdate :=
  if include_aur && pm.supports_aur then (aurPhase env).1 else []

/-! ### NixOS rebuild-summary parsing
(`UpdateChecker::parse_nixos_rebuild_output`) -/

/-- A line announcing derivations to build ("these X derivations will be
built:"). -/
def buildPhraseLine (line : String) : Bool :=
  containsStr line "derivations will be built" ||
  containsStr line "derivation will be built"

/-- A line announcing paths to fetch ("these X paths will be fetched"). -/
def fetchPhraseLine (line : String) : Bool :=
  containsStr line "paths will be fetched" ||
  containsStr line "path will be fetched"

/-- The count on a summary line: its second whitespace token parsed as
`usize` (`line.split_whitespace().nth(1)` + `parse`). -/
def countToken (line : String) : Option Nat :=
  ((splitWS line).get? 1).bind rustParseUsize

/-- One step of the line scan of `parse_nixos_rebuild_output`: a line
containing a derivations-built phrase overwrites the build count with its
second whitespace token (when it parses as `usize`), and likewise for the
paths-fetched count. -/
def rebuildCountStep (acc : Nat × Nat) (line : String) : Nat × Nat :=
  let acc :=
    if buildPhraseLine line then
      match countToken line with
      | some n => (n, acc.2)
      | none => acc
    else acc
  if fetchPhraseLine line then
    match countToken line with
    | some n => (acc.1, n)
    | none => acc
  else acc

/-- `UpdateChecker::parse_nixos_rebuild_output`: scan the combined rebuild
output for build/fetch counts and synthesize at most two summary entries;
the Rust signature is `Result` but every path returns `Ok`. -/
def parse_nixos_rebuild_output (output : String) :
    Except String (List PackageUpdate) :=
  let counts := (rustLines output).foldl rebuildCountStep (0, 0)
  if counts.1 > 0 || counts.2 > 0 then
    .ok ((if counts.1 > 0 then
           [⟨"System Update", toString counts.1 ++ " packages",
             "will be built", false⟩]
         else []) ++
         (if counts.2 > 0 then
           [⟨"Downloads", toString counts.2 ++ " packages",
             "will be fetched", false⟩]
         else []))
  else if containsStr output "up to date" || containsStr output "already built" then
    .ok []
  else
    -- `updates` is still the empty vector here
    .ok []

/-! ### Commit-hash extraction (`UpdateChecker::extract_commit_hash`)

Rust `String::len` is the UTF-8 byte length and `&s[..k]` slices `k` bytes,
panicking when `k` is not a character boundary; `utf8Len` and `takeBytes`
model this (`takeBytes` returns `none` exactly when the Rust slice panics). -/

/-- Rust `str::len`: the UTF-8 byte length. -/
def utf8Len (l : List Char) : Nat :=
  (l.map Char.utf8Size).sum

/-- Rust `&s[..n]` byte slicing: `none` when `n` overruns the string or falls
inside a multi-byte character (a Rust panic). -/
def takeBytes (n : Nat) : List Char → Option (List Char)
  | [] => if n = 0 then some [] else none
  | c :: rest =>
    if n = 0 then some []
    else if c.utf8Size ≤ n then
      (takeBytes (n - c.utf8Size) rest).map (fun r => c :: r)
    else none

/-- The suffix after the last `/` (Rust `rfind('/')` plus slicing past it);
meaningful only when `/` occurs. -/
def afterLastSlash (l : List Char) : List Char :=
  (l.reverse.takeWhile (fun c => c ≠ '/')).reverse

/-- Rust `char::is_ascii_hexdigit`. -/
def isAsciiHexDigit (c : Char) : Bool :=
  c.isDigit || ('a' ≤ c && c ≤ 'f') || ('A' ≤ c && c ≤ 'F')

/-- The fall-through tail of `extract_commit_hash` (after the
`rfind('/')` branch): hash-shaped strings are truncated to 7 bytes, long
strings to 12 bytes, short strings returned whole. -/
def extract_commit_hash_tail (git_ref : String) : Option String :=
  let l := git_ref.data
  if 7 ≤ utf8Len l ∧ l.all isAsciiHexDigit then
    (takeBytes 7 l).map List.asString
  else if 12 < utf8Len l then
    (takeBytes 12 l).map List.asString
  else some git_ref

/-- `UpdateChecker::extract_commit_hash`: first 7 bytes of the token after
the last `/` when it is long enough, else the fall-through tail; `none`
models a Rust slicing panic. -/
def extract_commit_hash (git_ref : String) : Option String :=
  let l := git_ref.data
  if l.elem '/' then
    let hash := afterLastSlash l
    if 7 ≤ utf8Len hash then (takeBytes 7 hash).map List.asString
    else extract_commit_hash_tail git_ref
  else extract_commit_hash_tail git_ref

/-! ### The flake-update pattern (`FLAKE_UPDATE_REGEX`)

The Rust static is the regex
`(?:Updated|updated|updating|Will update)\s+(?:input\s+)?['"]?([^\s':]+)['"]?:?\s+['"]?([^'"]+)['"]?\s+(?:->|→|to)\s+['"]?([^'"]+)['"]?`
compiled by the `regex` crate, whose match semantics are leftmost-first with
greedy (longest-first, backtracking) quantifiers.  It is embedded here as a
hand-compiled backtracking matcher: each `X?` tries consuming first and falls
back to the empty match, and each `C+` tries the maximal run of
class-`C` characters first, backing off one character at a time. -/

/-- The single-quote character, `'`. -/
def squoteChar : Char := Char.ofNat 39

/-- The double-quote character, `"`. -/
def dquoteChar : Char := Char.ofNat 34

/-- Characters matched by the regex's `['"]` class. -/
def isQuoteChar (c : Char) : Bool := c = squoteChar || c = dquoteChar

/-- All candidate splits for a greedy `C+`: nonempty prefixes of the maximal
run of class characters, longest first, each with the corresponding rest. -/
def greedySplits (p : Char → Bool) (l : List Char) : List (List Char × List Char) :=
  let m := (l.takeWhile p).length
  (List.range m).map (fun i => (l.take (m - i), l.drop (m - i)))

/-- First success of `f` over a list of candidates (backtracking search). -/
def firstSome (f : α → Option β) : List α → Option β
  | [] => none
  | x :: xs =>
    match f x with
    | some b => some b
    | none => firstSome f xs

/-- A greedy optional single character of class `p`: try consuming it, fall
back to the empty match if the continuation `k` fails. -/
def fmOptChar (p : Char → Bool) (k : List Char → Option α) (l : List Char) :
    Option α :=
  match l with
  | c :: t =>
    if p c then
      match k t with
      | some r => some r
      | none => k (c :: t)
    else k l
  | [] => k []

/-- `([^'"]+)['"]?` — the third capture and the regex's trailing optional
quote; returns the capture and the rest of the input after the match. -/
def fmCap3 (l : List Char) : Option (List Char × List Char) :=
  firstSome
    (fun pr => fmOptChar isQuoteChar (fun r => some (pr.1, r)) pr.2)
    (greedySplits (fun c => ¬ isQuoteChar c) l)

/-- `\s+['"]?` then the third capture — the part after the arrow token. -/
def fmAfterArrow (l : List Char) : Option (List Char × List Char) :=
  firstSome (fun pr => fmOptChar isQuoteChar fmCap3 pr.2)
    (greedySplits Char.isWhitespace l)

/-- `(?:->|→|to)` then the rest of the pattern.  The three alternatives start
with pairwise distinct characters, so first-match-wins is exactly the
regex's ordered alternation. -/
def fmArrow (l : List Char) : Option (List Char × List Char) :=
  if "->".data.isPrefixOf l then fmAfterArrow (l.drop 2)
  else if "→".data.isPrefixOf l then fmAfterArrow (l.drop 1)
  else if "to".data.isPrefixOf l then fmAfterArrow (l.drop 2)
  else none

/-- `\s+` between the second capture's closing quote and the arrow. -/
def fmAfterCap2 (l : List Char) : Option (List Char × List Char) :=
  firstSome (fun pr => fmArrow pr.2) (greedySplits Char.isWhitespace l)

/-- `([^'"]+)['"]?` — the second capture, its optional closing quote, and
everything after the arrow; returns (capture 2, capture 3, rest). -/
def fmCap2 (l : List Char) : Option (List Char × List Char × List Char) :=
  firstSome
    (fun pr =>
      match fmOptChar isQuoteChar fmAfterCap2 pr.2 with
      | some r => some (pr.1, r)
      | none => none)
    (greedySplits (fun c => ¬ isQuoteChar c) l)

/-- `['"]?:?\s+['"]?` between the first and second captures. -/
def fmAfterCap1 (l : List Char) : Option (List Char × List Char × List Char) :=
  fmOptChar isQuoteChar
    (fmOptChar (fun c => c = ':')
      (fun l2 =>
        firstSome (fun pr => fmOptChar isQuoteChar fmCap2 pr.2)
          (greedySplits Char.isWhitespace l2)))
    l

/-- `([^\s':]+)` — the first capture (the input name) and everything after;
returns (capture 1, capture 2, capture 3, rest). -/
def fmCap1 (l : List Char) :
    Option (List Char × List Char × List Char × List Char) :=
  firstSome
    (fun pr =>
      match fmAfterCap1 pr.2 with
      | some (c2, c3, r) => some (pr.1, c2, c3, r)
      | none => none)
    (greedySplits
      (fun c => ¬ (c.isWhitespace || c = squoteChar || c = ':')) l)

/-- `(?:input\s+)?['"]?` before the first capture: try the `input` group
first (greedy option), falling back to skipping it. -/
def fmInputGroup (l : List Char) :
    Option (List Char × List Char × List Char × List Char) :=
  match
    (if "input".data.isPrefixOf l then
      firstSome (fun pr => fmOptChar isQuoteChar fmCap1 pr.2)
        (greedySplits Char.isWhitespace (l.drop 5))
    else none) with
  | some r => some r
  | none => fmOptChar isQuoteChar fmCap1 l

/-- `\s+` after the verb. -/
def fmAfterVerb (l : List Char) :
    Option (List Char × List Char × List Char × List Char) :=
  firstSome (fun pr => fmInputGroup pr.2) (greedySplits Char.isWhitespace l)

/-- A match of `FLAKE_UPDATE_REGEX` anchored at the start of `l`: the three
captures and the rest of the input after the match.  The four verb
alternatives are mutually non-prefix, so first-match-wins is exact. -/
def matchFlakeAt (l : List Char) :
    Option (List Char × List Char × List Char × List Char) :=
  if "Updated".data.isPrefixOf l then fmAfterVerb (l.drop 7)
  else if "updated".data.isPrefixOf l then fmAfterVerb (l.drop 7)
  else if "updating".data.isPrefixOf l then fmAfterVerb (l.drop 8)
  else if "Will update".data.isPrefixOf l then fmAfterVerb (l.drop 11)
  else none

/-- `Regex::captures_iter`: successive non-overlapping leftmost matches.
Every step strictly shortens the input, so fuel `length + 1` is enough. -/
def flakeScan : Nat → List Char → List (List Char × List Char × List Char)
  | 0, _ => []
  | fuel + 1, l =>
    match matchFlakeAt l with
    | some (c1, c2, c3, rest) => (c1, c2, c3) :: flakeScan fuel rest
    | none =>
      match l with
      | [] => []
      | _ :: t => flakeScan fuel t

/-- All capture groups of `FLAKE_UPDATE_REGEX` over the input. -/
def flakeCaptures (s : String) : List (List Char × List Char × List Char) :=
  flakeScan (s.data.length + 1) s.data

/-- `UpdateChecker::parse_flake_updates`: one `PackageUpdate` per regex
match, versions shortened by `extract_commit_hash`; `none` models a Rust
panic inside `extract_commit_hash`. -/
def parse_flake_updates (output : String) : Option (List PackageUpdate) :=
  (flakeCaptures output).mapM (fun cap =>
    (extract_commit_hash cap.2.1.asString).bind (fun old_version =>
      (extract_commit_hash cap.2.2.asString).map (fun new_version =>
        ⟨"flake:" ++ cap.1.asString, old_version, new_version, false⟩)))

/-! ### NixOS flakes-mode checking (`UpdateChecker::check_nixos_flakes`) -/

/-- `enum NixOSMode` from `config.rs`. -/
inductive NixOSMode where
  | Channels
  | Flakes
deriving DecidableEq, Repr

/-- `struct NixOSConfig` from `config.rs` (hostname is unused by the
checker). -/
structure NixOSConfig where
  mode : NixOSMode
  config_path : String

/-- Environment of one `check_nixos_flakes` call: whether `flake.lock`
exists in the configured path, and the outcomes of the two external commands
(`nix flake update --dry-run` and `nixos-rebuild dry-build`); `.error`
models a spawn failure.  (The `nix flake metadata` invocation's result is
never read by the Rust code and is omitted.) -/
structure FlakesEnv where
  flakeLockExists : Bool
  updateCheck : Except String CmdOutput
  rebuild : Except String CmdOutput

/-- `UpdateChecker::check_nixos_flakes`.  The outer `Option` models a Rust
panic propagating from `extract_commit_hash`; note that both command spawn
failures are silently ignored (`if let Ok`), and a missing `flake.lock` is
an immediate error. -/
def check_nixos_flakes (env : FlakesEnv) (config_path : String) :
    Option (Except String (List PackageUpdate)) :=
  if env.flakeLockExists = false then
    some (.error ("flake.lock not found in " ++ config_path ++
      ". Run 'nix flake update' first."))
  else
    match env.updateCheck with
    | .ok out =>
      let combined := out.stdout ++ "\n" ++ out.stderr
      if containsStr combined "up to date" || containsStr combined "no updates" then
        some (.ok [])
      else
        match parse_flake_updates combined with
        | none => none
        | some all_updates =>
          if all_updates.isEmpty then some (.ok all_updates)
          else
            match env.rebuild with
            | .ok rout =>
              match parse_nixos_rebuild_output
                  (rout.stdout ++ "\n" ++ rout.stderr) with
              | .ok rebuild_updates => some (.ok (all_updates ++ rebuild_updates))
              | .error _ => some (.ok all_updates)
            | .error _ => some (.ok all_updates)
    | .error _ => some (.ok [])

/-- `UpdateChecker::check_nixos_updates`: dispatch on the configured mode.
The Channels arm runs an external privileged dry-build whose outcome is
supplied by the environment (`channels_result`). -/
def check_nixos_updates (cfg : NixOSConfig)
    (channels_result : Option (Except String (List PackageUpdate)))
    (fenv : FlakesEnv) : Option (Except String (List PackageUpdate)) :=
  match cfg.mode with
  | .Channels => channels_result
  | .Flakes => check_nixos_flakes fenv cfg.config_path

/-! ### The claim's reading of the Arch-family line grammar -/

/-- Modelled from the spec's words (claim C6 / spec §4.3 Arch-family
grammar), for comparison with the source-derived `parse_package_line`:
"if a literal `->` token appears at position 2, format is `name old -> new`;
else format is `name new` with current_version set to the unknown
sentinel". -/
def arch_line_spec_parse (line : String) (is_aur : Bool) : Option PackageUpdate :=
  if isNoiseLine line then none
  else
    let t := splitWS line
    if t.get? 2 = some "->" then
      match t with
      | t0 :: t1 :: _ :: t3 :: _ => some ⟨t0, t1, t3, is_aur⟩
      | _ => none
    else
      match t with
      | t0 :: t1 :: _ => some ⟨t0, "unknown", t1, is_aur⟩
      | _ => none

/-- A sample package update used by several witnesses. -/
def samplePkg : PackageUpdate := ⟨"linux", "6.1.0-1", "6.2.0-1", false⟩

/-- A sample AUR package update used by several witnesses. -/
def sampleAurPkg : PackageUpdate := ⟨"yay-bin", "12.0.0-1", "12.1.0-1", true⟩

/-! ## Theorems -/

/-- Once the lock is held, `check_updates` always returns `Ok` of the record
assembled from the two phase outcomes, with `total_updates` computed from the
final concatenated package list. -/
theorem check_updates_locked_fst (env : CheckEnv) (pm : PackageManager)
    (include_aur : Bool) :
    (check_updates_locked env pm include_aur).1 =
      .ok { total_updates := (officialOutcome env ++ aurOutcome env pm include_aur).length,
            official_updates := (officialOutcome env).length,
            aur_updates := (aurOutcome env pm include_aur).length,
            packages := officialOutcome env ++ aurOutcome env pm include_aur } := by
  unfold check_updates_locked officialOutcome aurOutcome
  cases hb : include_aur && pm.supports_aur <;> simp [hb]

/-- When either lock acquisition succeeds, `check_updates` runs the locked
body. -/
theorem check_updates_eq_locked (env : CheckEnv) (pm : PackageManager)
    (include_aur : Bool) (h : env.lock1 = .ok () ∨ env.lock2 = .ok ()) :
    check_updates env pm include_aur = check_updates_locked env pm include_aur := by
  unfold check_updates
  cases h1 : env.lock1 with
  | ok u => rfl
  | error e =>
    cases h2 : env.lock2 with
    | ok u => rfl
    | error f => rcases h with h | h <;> simp_all

/-- C1: every `UpdateInfo` returned successfully by `check_updates` — for any
package manager, any `include_aur` flag and any environment (hence any NixOS
config) — satisfies `total_updates = packages.length`, the total being set
once from the final concatenated list after both phases; and the invariant
also holds for `UpdateInfo::new` (zero total, empty list). -/
theorem c1_total_updates_invariant :
    (∀ (env : CheckEnv) (pm : PackageManager) (include_aur : Bool)
        (info : UpdateInfo),
      (check_updates env pm include_aur).1 = .ok info →
      info.total_updates = info.packages.length)
    ∧ UpdateInfo.new.total_updates = 0 ∧ UpdateInfo.new.packages = [] := by
  refine ⟨?_, rfl, rfl⟩
  intro env pm ia info h
  cases h1 : env.lock1 with
  | ok u =>
    rw [check_updates_eq_locked env pm ia (Or.inl (by rw [h1]))] at h
    rw [check_updates_locked_fst] at h
    cases h
    rfl
  | error e =>
    cases h2 : env.lock2 with
    | ok u =>
      rw [check_updates_eq_locked env pm ia (Or.inr (by rw [h2]))] at h
      rw [check_updates_locked_fst] at h
      cases h
      rfl
    | error f => simp [check_updates, h1, h2] at h

/-- Witness for C1 at a concrete environment: one official update, no AUR
phase. -/
theorem c1_total_updates_invariant_witness :
    (check_updates ⟨.ok (), .ok (), .ok [samplePkg], .ok [], .ok [], .ok []⟩
        .Pacman false).1 = .ok ⟨1, 1, 0, [samplePkg]⟩ ∧
    (⟨1, 1, 0, [samplePkg]⟩ : UpdateInfo).total_updates =
      (⟨1, 1, 0, [samplePkg]⟩ : UpdateInfo).packages.length :=
  ⟨rfl, c1_total_updates_invariant.1
    ⟨.ok (), .ok (), .ok [samplePkg], .ok [], .ok [], .ok []⟩ .Pacman false
    ⟨1, 1, 0, [samplePkg]⟩ rfl⟩

/-- C9: every successful `check_updates` result satisfies
`official_updates + aur_updates = total_updates`, and its package list is
exactly the official-phase outcome followed by the AUR-phase outcome. -/
theorem c9_packages_decomposition (env : CheckEnv) (pm : PackageManager)
    (include_aur : Bool) (info : UpdateInfo)
    (h : (check_updates env pm include_aur).1 = .ok info) :
    info.packages = officialOutcome env ++ aurOutcome env pm include_aur ∧
    info.official_updates = (officialOutcome env).length ∧
    info.aur_updates = (aurOutcome env pm include_aur).length ∧
    info.official_updates + info.aur_updates = info.total_updates := by
  have hok : info.total_updates = info.packages.length ∧
      info.packages = officialOutcome env ++ aurOutcome env pm include_aur ∧
      info.official_updates = (officialOutcome env).length ∧
      info.aur_updates = (aurOutcome env pm include_aur).length := by
    cases h1 : env.lock1 with
    | ok u =>
      rw [check_updates_eq_locked env pm include_aur (Or.inl (by rw [h1]))] at h
      rw [check_updates_locked_fst] at h
      cases h
      exact ⟨rfl, rfl, rfl, rfl⟩
    | error e =>
      cases h2 : env.lock2 with
      | ok u =>
        rw [check_updates_eq_locked env pm include_aur (Or.inr (by rw [h2]))] at h
        rw [check_updates_locked_fst] at h
        cases h
        exact ⟨rfl, rfl, rfl, rfl⟩
      | error f => simp [check_updates, h1, h2] at h
  obtain ⟨ht, hp, ho, ha⟩ := hok
  refine ⟨hp, ho, ha, ?_⟩
  rw [ht, hp, ho, ha, List.length_append]

/-- Witness for C9: one official and one AUR update under paru. -/
theorem c9_packages_decomposition_witness :
    (check_updates ⟨.ok (), .ok (), .ok [samplePkg], .ok [],
        .ok [sampleAurPkg], .ok []⟩ .Paru true).1 =
      .ok ⟨2, 1, 1, [samplePkg, sampleAurPkg]⟩ ∧
    ((⟨2, 1, 1, [samplePkg, sampleAurPkg]⟩ : UpdateInfo).packages =
      officialOutcome ⟨.ok (), .ok (), .ok [samplePkg], .ok [],
        .ok [sampleAurPkg], .ok []⟩ ++
      aurOutcome ⟨.ok (), .ok (), .ok [samplePkg], .ok [],
        .ok [sampleAurPkg], .ok []⟩ .Paru true ∧
     (⟨2, 1, 1, [samplePkg, sampleAurPkg]⟩ : UpdateInfo).official_updates =
      (officialOutcome ⟨.ok (), .ok (), .ok [samplePkg], .ok [],
        .ok [sampleAurPkg], .ok []⟩).length ∧
     (⟨2, 1, 1, [samplePkg, sampleAurPkg]⟩ : UpdateInfo).aur_updates =
      (aurOutcome ⟨.ok (), .ok (), .ok [samplePkg], .ok [],
        .ok [sampleAurPkg], .ok []⟩ .Paru true).length ∧
     (⟨2, 1, 1, [samplePkg, sampleAurPkg]⟩ : UpdateInfo).official_updates +
      (⟨2, 1, 1, [samplePkg, sampleAurPkg]⟩ : UpdateInfo).aur_updates =
      (⟨2, 1, 1, [samplePkg, sampleAurPkg]⟩ : UpdateInfo).total_updates) :=
  ⟨rfl, c9_packages_decomposition
    ⟨.ok (), .ok (), .ok [samplePkg], .ok [], .ok [sampleAurPkg], .ok []⟩
    .Paru true ⟨2, 1, 1, [samplePkg, sampleAurPkg]⟩ rfl⟩

/-- C3: when both lock acquisition attempts fail, `check_updates` fails with
"Update check already in progress" and performs no phase command and no peer
notification (empty event trace). -/
theorem c3_lock_contention (env : CheckEnv) (pm : PackageManager)
    (include_aur : Bool) (e1 e2 : String)
    (h1 : env.lock1 = .error e1) (h2 : env.lock2 = .error e2) :
    check_updates env pm include_aur =
      (.error ("Update check already in progress: " ++ e2), []) := by
  simp [check_updates, h1, h2]

/-- Witness for C3 at a concrete contended environment. -/
theorem c3_lock_contention_witness :
    (⟨.error "Another instance is checking for updates",
      .error "Another instance is checking for updates",
      .ok [], .ok [], .ok [], .ok []⟩ : CheckEnv).lock1 =
        .error "Another instance is checking for updates" ∧
    check_updates
      ⟨.error "Another instance is checking for updates",
       .error "Another instance is checking for updates",
       .ok [], .ok [], .ok [], .ok []⟩ .Pacman true =
      (.error ("Update check already in progress: " ++
        "Another instance is checking for updates"), []) :=
  ⟨rfl, c3_lock_contention
    ⟨.error "Another instance is checking for updates",
     .error "Another instance is checking for updates",
     .ok [], .ok [], .ok [], .ok []⟩ .Pacman true
    "Another instance is checking for updates"
    "Another instance is checking for updates" rfl rfl⟩

/-- C4: when the lock is acquired but the official phase fails on both its
attempts, `check_updates` still returns `Ok` with zero official updates and
only AUR packages, and the AUR phase is still attempted whenever
`include_aur` holds and the manager supports the AUR. -/
theorem c4_official_failure_tolerated (env : CheckEnv) (pm : PackageManager)
    (include_aur : Bool) (e1 e2 : String)
    (hl : env.lock1 = .ok () ∨ env.lock2 = .ok ())
    (h1 : env.official1 = .error e1) (h2 : env.official2 = .error e2) :
    (check_updates env pm include_aur).1 =
      .ok { total_updates := (aurOutcome env pm include_aur).length,
            official_updates := 0,
            aur_updates := (aurOutcome env pm include_aur).length,
            packages := aurOutcome env pm include_aur } ∧
    (include_aur = true → pm.supports_aur = true →
      CheckEvent.aurCmd ∈ (check_updates env pm include_aur).2) := by
  rw [check_updates_eq_locked env pm include_aur hl]
  have hoff : officialOutcome env = [] := by
    simp [officialOutcome, officialPhase, h1, h2]
  constructor
  · rw [check_updates_locked_fst, hoff]
    simp
  · intro hia hs
    unfold check_updates_locked
    simp only [hia, hs, Bool.and_self]
    unfold aurPhase
    cases ha1 : env.aur1 with
    | ok l => simp
    | error e =>
      cases ha2 : env.aur2 with
      | ok l => simp
      | error f => simp

/-- Witness for C4: official phase fails twice, AUR succeeds under yay. -/
theorem c4_official_failure_tolerated_witness :
    (check_updates ⟨.ok (), .ok (), .error "net down", .error "net down",
        .ok [sampleAurPkg], .ok []⟩ .Yay true).1 =
      .ok { total_updates := (aurOutcome ⟨.ok (), .ok (), .error "net down",
              .error "net down", .ok [sampleAurPkg], .ok []⟩ .Yay true).length,
            official_updates := 0,
            aur_updates := (aurOutcome ⟨.ok (), .ok (), .error "net down",
              .error "net down", .ok [sampleAurPkg], .ok []⟩ .Yay true).length,
            packages := aurOutcome ⟨.ok (), .ok (), .error "net down",
              .error "net down", .ok [sampleAurPkg], .ok []⟩ .Yay true } ∧
    (true = true → PackageManager.Yay.supports_aur = true →
      CheckEvent.aurCmd ∈ (check_updates ⟨.ok (), .ok (), .error "net down",
        .error "net down", .ok [sampleAurPkg], .ok []⟩ .Yay true).2) :=
  c4_official_failure_tolerated
    ⟨.ok (), .ok (), .error "net down", .error "net down",
     .ok [sampleAurPkg], .ok []⟩ .Yay true "net down" "net down"
    (Or.inl rfl) rfl rfl

/-- C2: interpretation of nonzero exit statuses in `parse_update_output` —
checkupdates exit 2 and paru/yay exit 1 give an empty `Ok`; dnf exit 100
proceeds to parse stdout; any other nonzero exit parses anyway when stdout is
not whitespace-only, and otherwise fails with a message carrying the numeric
exit code and the captured stderr. -/
theorem c2_exit_code_interpretation (pm : PackageManager) (cmd : String)
    (out : CmdOutput) (is_aur : Bool) :
    (cmd = "checkupdates" → out.status = some 2 →
      parse_update_output pm cmd out is_aur = .ok []) ∧
    ((cmd = "paru" ∨ cmd = "yay") → out.status = some 1 →
      parse_update_output pm cmd out is_aur = .ok []) ∧
    (cmd = "dnf" → out.status = some 100 →
      parse_update_output pm cmd out is_aur =
        .ok (parse_stdout_lines pm out.stdout is_aur)) ∧
    (out.status ≠ some 0 →
      ¬(cmd = "checkupdates" ∧ out.status.getD (-1) = 2) →
      ¬((cmd = "paru" ∨ cmd = "yay") ∧ out.status.getD (-1) = 1) →
      ¬(cmd = "dnf" ∧ out.status.getD (-1) = 100) →
      trimStr out.stdout ≠ "" →
      parse_update_output pm cmd out is_aur =
        .ok (parse_stdout_lines pm out.stdout is_aur)) ∧
    (out.status ≠ some 0 →
      ¬(cmd = "checkupdates" ∧ out.status.getD (-1) = 2) →
      ¬((cmd = "paru" ∨ cmd = "yay") ∧ out.status.getD (-1) = 1) →
      ¬(cmd = "dnf" ∧ out.status.getD (-1) = 100) →
      trimStr out.stdout = "" →
      parse_update_output pm cmd out is_aur =
        .error ("Failed to check for updates (exit " ++
          toString (out.status.getD (-1)) ++ "): " ++ out.stderr)) := by
  refine ⟨?_, ?_, ?_, ?_, ?_⟩
  · intro hc hs
    subst hc
    simp only [parse_update_output, hs]
    rfl
  · rintro (hc | hc) hs <;> subst hc <;> simp only [parse_update_output, hs] <;> rfl
  · intro hc hs
    subst hc
    simp only [parse_update_output, hs]
    rfl
  · intro h0 h1 h2 h3 h4
    have hnor : ¬((cmd = "checkupdates" ∧ out.status.getD (-1) = 2) ∨
        ((cmd = "paru" ∨ cmd = "yay") ∧ out.status.getD (-1) = 1) ∨
        (cmd = "dnf" ∧ out.status.getD (-1) = 100)) := by
      rintro (h | h | h) <;> [exact h1 h; exact h2 h; exact h3 h]
    simp only [parse_update_output, if_neg h0, if_neg hnor, if_neg h4]
  · intro h0 h1 h2 h3 h4
    have hnor : ¬((cmd = "checkupdates" ∧ out.status.getD (-1) = 2) ∨
        ((cmd = "paru" ∨ cmd = "yay") ∧ out.status.getD (-1) = 1) ∨
        (cmd = "dnf" ∧ out.status.getD (-1) = 100)) := by
      rintro (h | h | h) <;> [exact h1 h; exact h2 h; exact h3 h]
    simp only [parse_update_output, if_neg h0, if_neg hnor, if_pos h4]

/-- Witness for C2: checkupdates exit 2 gives an empty `Ok`; apt exit 1 with
whitespace-only stdout gives the hard error carrying stderr and exit code. -/
theorem c2_exit_code_interpretation_witness :
    parse_update_output .Pacman "checkupdates" ⟨some 2, "", ""⟩ false = .ok [] ∧
    parse_update_output .Apt "apt" ⟨some 1, " ", "boom"⟩ false =
      .error "Failed to check for updates (exit 1): boom" :=
  ⟨(c2_exit_code_interpretation .Pacman "checkupdates" ⟨some 2, "", ""⟩
      false).1 rfl rfl,
   (c2_exit_code_interpretation .Apt "apt" ⟨some 1, " ", "boom"⟩
      false).2.2.2.2 (by decide) (by decide) (by decide) (by decide) (by decide)⟩

/-- Counterexample to C6 as stated: on the line `"a -> b"` (not blank, not a
header line) the `->` token sits at position 1, so the claim's "otherwise"
arm predicts `{a, unknown, ->}`, but the code — which branches on the
substring `" -> "` first — yields nothing. -/
theorem c6_counterexample :
    parse_package_line .Pacman "a -> b" false = none ∧
    arch_line_spec_parse "a -> b" false = some ⟨"a", "unknown", "->", false⟩ := by
  exact ⟨by decide, by decide⟩

/-- The three Arch-family managers share one parsing arm. -/
theorem parse_package_line_arch (pm : PackageManager)
    (hpm : pm = .Pacman ∨ pm = .Paru ∨ pm = .Yay)
    (line : String) (a : Bool) :
    parse_package_line pm line a =
      (if isNoiseLine line then none
       else if containsStr line " -> " then
         match splitWS line with
         | t0 :: t1 :: t2 :: t3 :: _ =>
           if t2 = "->" then some ⟨t0, t1, t3, a⟩ else none
         | _ => none
       else
         match splitWS line with
         | t0 :: t1 :: _ => some ⟨t0, "unknown", t1, a⟩
         | _ => none) := by
  rcases hpm with h | h | h <;> subst h <;> rfl

/-- C6 amended: for the Arch-family managers and non-noise lines, the code
first branches on whether the line contains the substring `" -> "`; if so, it
yields `{token 0, token 1, token 3}` exactly when the whitespace tokens are
`t0 t1 "->" t3 ...`, and nothing otherwise; only lines without `" -> "` use
the two-token `{name, unknown, new}` form.  The `is_aur` flag equals the
context argument. -/
theorem c6_arch_line_grammar (pm : PackageManager)
    (hpm : pm = .Pacman ∨ pm = .Paru ∨ pm = .Yay)
    (line : String) (a : Bool) (hn : isNoiseLine line = false) :
    (containsStr line " -> " = true →
      (∀ t0 t1 t3 rest, splitWS line = t0 :: t1 :: "->" :: t3 :: rest →
        parse_package_line pm line a = some ⟨t0, t1, t3, a⟩) ∧
      ((¬ ∃ t0 t1 t3 rest, splitWS line = t0 :: t1 :: "->" :: t3 :: rest) →
        parse_package_line pm line a = none)) ∧
    (containsStr line " -> " = false →
      (∀ t0 t1 rest, splitWS line = t0 :: t1 :: rest →
        parse_package_line pm line a = some ⟨t0, "unknown", t1, a⟩) ∧
      (∀ t0, splitWS line = [t0] → parse_package_line pm line a = none) ∧
      (splitWS line = [] → parse_package_line pm line a = none)) := by
  rw [parse_package_line_arch pm hpm line a]
  simp only [hn, Bool.false_eq_true, if_false]
  constructor
  · intro hc
    simp only [hc, if_true]
    constructor
    · intro t0 t1 t3 rest hsp
      rw [hsp]
      simp
    · intro hne
      cases hsp : splitWS line with
      | nil => simp
      | cons t0 tl =>
        cases tl with
        | nil => simp
        | cons t1 tl2 =>
          cases tl2 with
          | nil => simp
          | cons t2 tl3 =>
            cases tl3 with
            | nil => simp
            | cons t3 tl4 =>
              simp only []
              by_cases ht : t2 = "->"
              · exact absurd ⟨t0, t1, t3, tl4, by rw [hsp, ht]⟩ hne
              · simp [ht]
  · intro hc
    simp only [hc, Bool.false_eq_true, if_false]
    refine ⟨?_, ?_, ?_⟩
    · intro t0 t1 rest hsp
      rw [hsp]
    · intro t0 hsp
      rw [hsp]
    · intro hsp
      rw [hsp]

/-- Witness for the amended C6 at the spec's own example line. -/
theorem c6_arch_line_grammar_witness :
    isNoiseLine "linux 6.1.0-1 -> 6.2.0-1" = false ∧
    parse_package_line .Pacman "linux 6.1.0-1 -> 6.2.0-1" false =
      some ⟨"linux", "6.1.0-1", "6.2.0-1", false⟩ :=
  ⟨by decide,
   ((c6_arch_line_grammar .Pacman (Or.inl rfl) "linux 6.1.0-1 -> 6.2.0-1"
       false (by decide)).1 (by decide)).1
     "linux" "6.1.0-1" "6.2.0-1" [] (by decide)⟩

/-- Counterexample to C7 as stated: an input that contains both quoted count
lines but also a later "these 0 derivations will be built:" line — the scan
overwrites the build count with 0, so only one summary entry is produced,
not two. -/
theorem c7_counterexample :
    "these 47 derivations will be built:" ∈
      rustLines "these 47 derivations will be built:\nthese 23 paths will be fetched\nthese 0 derivations will be built:" ∧
    "these 23 paths will be fetched" ∈
      rustLines "these 47 derivations will be built:\nthese 23 paths will be fetched\nthese 0 derivations will be built:" ∧
    parse_nixos_rebuild_output
      "these 47 derivations will be built:\nthese 23 paths will be fetched\nthese 0 derivations will be built:" =
      .ok [⟨"Downloads", "23 packages", "will be fetched", false⟩] := by
  refine ⟨by decide, by decide, by rfl⟩

/-- The line scan of `parse_nixos_rebuild_output`: when every build-count
line yields 47, every fetch-count line yields 23, and no line carries both
phrases, the final counts are 47/23 (or the accumulator component when no
such line occurs). -/
theorem rebuildCounts_foldl (ls : List String) (acc : Nat × Nat)
    (hb : ∀ l ∈ ls, buildPhraseLine l = true → countToken l = some 47)
    (hf : ∀ l ∈ ls, fetchPhraseLine l = true → countToken l = some 23)
    (hx : ∀ l ∈ ls, ¬(buildPhraseLine l = true ∧ fetchPhraseLine l = true)) :
    ls.foldl rebuildCountStep acc =
      ((if ls.any buildPhraseLine then 47 else acc.1),
       (if ls.any fetchPhraseLine then 23 else acc.2)) := by
  induction ls generalizing acc with
  | nil => simp
  | cons l t ih =>
    have hb0 := hb l (List.mem_cons_self l t)
    have hf0 := hf l (List.mem_cons_self l t)
    have hx0 := hx l (List.mem_cons_self l t)
    have hbt : ∀ x ∈ t, buildPhraseLine x = true → countToken x = some 47 :=
      fun x hm => hb x (List.mem_cons_of_mem l hm)
    have hft : ∀ x ∈ t, fetchPhraseLine x = true → countToken x = some 23 :=
      fun x hm => hf x (List.mem_cons_of_mem l hm)
    have hxt : ∀ x ∈ t, ¬(buildPhraseLine x = true ∧ fetchPhraseLine x = true) :=
      fun x hm => hx x (List.mem_cons_of_mem l hm)
    simp only [List.foldl_cons, List.any_cons]
    by_cases hbl : buildPhraseLine l = true
    · have hfl : fetchPhraseLine l = false := by
        by_contra hc
        exact hx0 ⟨hbl, by simpa using hc⟩
      have hstep : rebuildCountStep acc l = (47, acc.2) := by
        simp [rebuildCountStep, hbl, hfl, hb0 hbl]
      rw [hstep, ih _ hbt hft hxt]
      simp [hbl, hfl, ite_self]
    · have hbl' : buildPhraseLine l = false := by simpa using hbl
      by_cases hfl : fetchPhraseLine l = true
      · have hstep : rebuildCountStep acc l = (acc.1, 23) := by
          simp [rebuildCountStep, hbl', hfl, hf0 hfl]
        rw [hstep, ih _ hbt hft hxt]
        simp [hbl', hfl, ite_self]
      · have hfl' : fetchPhraseLine l = false := by simpa using hfl
        have hstep : rebuildCountStep acc l = acc := by
          simp [rebuildCountStep, hbl', hfl']
        rw [hstep, ih _ hbt hft hxt]
        simp [hbl', hfl']

/-- C7 amended: the two-entry result holds for inputs whose build-count lines
all carry 47 and fetch-count lines all carry 23 (as in the quoted example,
provided no other line carries a count phrase): the first entry is
"System Update" with free-text field "47 packages" and the second is
"Downloads" with "23 packages".  And any input with no count-phrase line at
all — containing "up to date" or "already built" — yields zero entries. -/
theorem c7_rebuild_summary (s : String)
    (hb : ∀ l ∈ rustLines s, buildPhraseLine l = true → countToken l = some 47)
    (hf : ∀ l ∈ rustLines s, fetchPhraseLine l = true → countToken l = some 23)
    (hx : ∀ l ∈ rustLines s, ¬(buildPhraseLine l = true ∧ fetchPhraseLine l = true))
    (hbq : ∃ l ∈ rustLines s, buildPhraseLine l = true)
    (hfq : ∃ l ∈ rustLines s, fetchPhraseLine l = true) :
    parse_nixos_rebuild_output s =
      .ok [⟨"System Update", "47 packages", "will be built", false⟩,
           ⟨"Downloads", "23 packages", "will be fetched", false⟩] ∧
    (∀ t : String,
      (∀ l ∈ rustLines t, buildPhraseLine l = false ∧ fetchPhraseLine l = false) →
      (containsStr t "up to date" = true ∨ containsStr t "already built" = true) →
      parse_nixos_rebuild_output t = .ok []) := by
  constructor
  · have hcounts : (rustLines s).foldl rebuildCountStep (0, 0) = (47, 23) := by
      rw [rebuildCounts_foldl _ _ hb hf hx]
      rw [if_pos (List.any_eq_true.mpr hbq), if_pos (List.any_eq_true.mpr hfq)]
    simp only [parse_nixos_rebuild_output]
    rw [hcounts]
    rfl
  · intro t hnone hupd
    have hcounts : (rustLines t).foldl rebuildCountStep (0, 0) = (0, 0) := by
      rw [rebuildCounts_foldl _ _
        (fun l hm hbl => absurd hbl (by simp [(hnone l hm).1]))
        (fun l hm hfl => absurd hfl (by simp [(hnone l hm).2]))
        (fun l hm h => by simp [(hnone l hm).1] at h)]
      have hba : (rustLines t).any buildPhraseLine = false := by
        rw [List.any_eq_false]
        intro l hm
        simp [(hnone l hm).1]
      have hfa : (rustLines t).any fetchPhraseLine = false := by
        rw [List.any_eq_false]
        intro l hm
        simp [(hnone l hm).2]
      rw [hba, hfa]
      rfl
    simp only [parse_nixos_rebuild_output]
    rw [hcounts]
    rcases hupd with h | h <;> simp [h]

/-- Witness for the amended C7 at the unit test's input and an up-to-date
message. -/
theorem c7_rebuild_summary_witness :
    parse_nixos_rebuild_output
      "these 47 derivations will be built:\n  /nix/store/abc...\nthese 23 paths will be fetched (15.2 MiB download, 89.3 MiB unpacked):" =
      .ok [⟨"System Update", "47 packages", "will be built", false⟩,
           ⟨"Downloads", "23 packages", "will be fetched", false⟩] ∧
    parse_nixos_rebuild_output "System is up to date" = .ok [] :=
  ⟨(c7_rebuild_summary
      "these 47 derivations will be built:\n  /nix/store/abc...\nthese 23 paths will be fetched (15.2 MiB download, 89.3 MiB unpacked):"
      (by decide) (by decide) (by decide) (by decide) (by decide)).1,
   (c7_rebuild_summary
      "these 47 derivations will be built:\n  /nix/store/abc...\nthese 23 paths will be fetched (15.2 MiB download, 89.3 MiB unpacked):"
      (by decide) (by decide) (by decide) (by decide) (by decide)).2
     "System is up to date" (by decide) (Or.inl (by decide))⟩

/-- C8: the flake-update pattern on the documented input yields exactly one
entry named `flake:nixpkgs` whose versions are the first 7 characters of the
hash token after the last `/` of each ref, and it also matches with `→` or
`to` as the arrow token. -/
theorem c8_flake_update_regex :
    parse_flake_updates
      "Updated input 'nixpkgs': 'github:NixOS/nixpkgs/abc123def' -> 'github:NixOS/nixpkgs/def456abc'" =
      some [⟨"flake:nixpkgs", "abc123d", "def456a", false⟩] ∧
    parse_flake_updates
      "Updated input 'nixpkgs': 'github:NixOS/nixpkgs/abc123def' → 'github:NixOS/nixpkgs/def456abc'" =
      some [⟨"flake:nixpkgs", "abc123d", "def456a", false⟩] ∧
    parse_flake_updates
      "Updated input 'nixpkgs': 'github:NixOS/nixpkgs/abc123def' to 'github:NixOS/nixpkgs/def456abc'" =
      some [⟨"flake:nixpkgs", "abc123d", "def456a", false⟩] := by
  refine ⟨by decide, by decide, by decide⟩

/-- Counterexample to C5 as stated: with `flake.lock` missing, the flakes
check does produce the instructive error, but `check_updates` absorbs it as
an official-phase failure (one retry, then degrade) and returns `Ok` with
zero updates — the error does not propagate to `check_updates`'s caller. -/
theorem c5_counterexample :
    check_nixos_flakes ⟨false, .error "spawn", .error "spawn"⟩ "/etc/nixos" =
      some (.error
        "flake.lock not found in /etc/nixos. Run 'nix flake update' first.") ∧
    (check_updates ⟨.ok (), .ok (),
        .error "flake.lock not found in /etc/nixos. Run 'nix flake update' first.",
        .error "flake.lock not found in /etc/nixos. Run 'nix flake update' first.",
        .ok [], .ok []⟩ .NixOS false).1 = .ok ⟨0, 0, 0, []⟩ := by
  exact ⟨rfl, rfl⟩

/-- C5 amended: in Flakes mode with no `flake.lock` in the configured path,
the flakes check fails immediately — before any command runs — with an error
instructing the user to run `nix flake update` first; but that error is
phase-level only: `check_updates` retries the official phase once and then
absorbs the failure into a degraded zero-official-update `Ok` result instead
of propagating it to its caller. -/
theorem c5_flake_lock_missing (fenv : FlakesEnv) (path : String)
    (cenv : CheckEnv) (pm : PackageManager) (include_aur : Bool)
    (hno : fenv.flakeLockExists = false)
    (hl : cenv.lock1 = .ok () ∨ cenv.lock2 = .ok ())
    (h1 : cenv.official1 = .error
      ("flake.lock not found in " ++ path ++ ". Run 'nix flake update' first."))
    (h2 : cenv.official2 = .error
      ("flake.lock not found in " ++ path ++ ". Run 'nix flake update' first.")) :
    check_nixos_flakes fenv path =
      some (.error
        ("flake.lock not found in " ++ path ++ ". Run 'nix flake update' first.")) ∧
    check_nixos_updates ⟨.Flakes, path⟩ (some (.ok [])) fenv =
      some (.error
        ("flake.lock not found in " ++ path ++ ". Run 'nix flake update' first.")) ∧
    (check_updates cenv pm include_aur).1 =
      .ok { total_updates := (aurOutcome cenv pm include_aur).length,
            official_updates := 0,
            aur_updates := (aurOutcome cenv pm include_aur).length,
            packages := aurOutcome cenv pm include_aur } := by
  have hflakes : check_nixos_flakes fenv path =
      some (.error ("flake.lock not found in " ++ path ++
        ". Run 'nix flake update' first.")) := by
    simp [check_nixos_flakes, hno]
  refine ⟨hflakes, by simp [check_nixos_updates, hflakes], ?_⟩
  rw [check_updates_eq_locked cenv pm include_aur hl, check_updates_locked_fst]
  have hoff : officialOutcome cenv = [] := by
    simp [officialOutcome, officialPhase, h1, h2]
  rw [hoff]
  simp

/-- Witness for the amended C5 at a concrete environment. -/
theorem c5_flake_lock_missing_witness :
    check_nixos_flakes ⟨false, .ok ⟨some 0, "", ""⟩, .ok ⟨some 0, "", ""⟩⟩
        "/etc/nixos" =
      some (.error
        ("flake.lock not found in " ++ "/etc/nixos" ++
          ". Run 'nix flake update' first.")) ∧
    check_nixos_updates ⟨.Flakes, "/etc/nixos"⟩ (some (.ok []))
        ⟨false, .ok ⟨some 0, "", ""⟩, .ok ⟨some 0, "", ""⟩⟩ =
      some (.error
        ("flake.lock not found in " ++ "/etc/nixos" ++
          ". Run 'nix flake update' first.")) ∧
    (check_updates ⟨.ok (), .ok (),
        .error ("flake.lock not found in " ++ "/etc/nixos" ++
          ". Run 'nix flake update' first."),
        .error ("flake.lock not found in " ++ "/etc/nixos" ++
          ". Run 'nix flake update' first."),
        .ok [], .ok []⟩ .NixOS false).1 =
      .ok { total_updates := (aurOutcome ⟨.ok (), .ok (),
              .error ("flake.lock not found in " ++ "/etc/nixos" ++
                ". Run 'nix flake update' first."),
              .error ("flake.lock not found in " ++ "/etc/nixos" ++
                ". Run 'nix flake update' first."),
              .ok [], .ok []⟩ .NixOS false).length,
            official_updates := 0,
            aur_updates := (aurOutcome ⟨.ok (), .ok (),
              .error ("flake.lock not found in " ++ "/etc/nixos" ++
                ". Run 'nix flake update' first."),
              .error ("flake.lock not found in " ++ "/etc/nixos" ++
                ". Run 'nix flake update' first."),
              .ok [], .ok []⟩ .NixOS false).length,
            packages := aurOutcome ⟨.ok (), .ok (),
              .error ("flake.lock not found in " ++ "/etc/nixos" ++
                ". Run 'nix flake update' first."),
              .error ("flake.lock not found in " ++ "/etc/nixos" ++
                ". Run 'nix flake update' first."),
              .ok [], .ok []⟩ .NixOS false } :=
  c5_flake_lock_missing
    ⟨false, .ok ⟨some 0, "", ""⟩, .ok ⟨some 0, "", ""⟩⟩ "/etc/nixos"
    ⟨.ok (), .ok (),
     .error ("flake.lock not found in " ++ "/etc/nixos" ++
       ". Run 'nix flake update' first."),
     .error ("flake.lock not found in " ++ "/etc/nixos" ++
       ". Run 'nix flake update' first."),
     .ok [], .ok []⟩ .NixOS false rfl (Or.inl rfl) rfl rfl

/-- Counterexample to C10 as stated: Rust byte-slicing `&hash[..7]` panics
when byte 7 falls inside a multi-byte character, as on `"x/ééééé"` (the
suffix after `/` is 10 bytes of 2-byte characters). -/
theorem c10_counterexample : extract_commit_hash "x/ééééé" = none := by
  decide

/-- A successful `takeBytes n` returns at most `n` characters (each character
occupies at least one byte). -/
theorem takeBytes_length_le (l : List Char) :
    ∀ (n : Nat) (r : List Char), takeBytes n l = some r → r.length ≤ n := by
  induction l with
  | nil =>
    intro n r h
    simp only [takeBytes] at h
    split at h
    · cases h
      simp
    · exact absurd h (by simp)
  | cons c t ih =>
    intro n r h
    simp only [takeBytes] at h
    split at h
    · cases h
      simp
    · split at h
      · obtain ⟨r', hr', rfl⟩ := Option.map_eq_some'.mp h
        have hle := ih (n - c.utf8Size) r' hr'
        have hpos := Char.utf8Size_pos c
        simp only [List.length_cons]
        omega
      · exact absurd h (by simp)

/-- On all-ASCII input (every character one byte), `takeBytes n` succeeds
whenever `n` does not exceed the character count. -/
theorem takeBytes_isSome (l : List Char) :
    ∀ n, (∀ c ∈ l, c.utf8Size = 1) → n ≤ l.length →
      (takeBytes n l).isSome = true := by
  induction l with
  | nil =>
    intro n _ h2
    have : n = 0 := by simpa using h2
    simp [takeBytes, this]
  | cons c t ih =>
    intro n h1 h2
    by_cases h0 : n = 0
    · simp [takeBytes, h0]
    · have hc : c.utf8Size = 1 := h1 c (List.mem_cons_self c t)
      have h1n : c.utf8Size ≤ n := by omega
      simp only [takeBytes, if_neg h0, if_pos h1n]
      have := ih (n - c.utf8Size)
        (fun x hm => h1 x (List.mem_cons_of_mem c hm))
        (by simp only [List.length_cons] at h2; omega)
      cases hx : takeBytes (n - c.utf8Size) t with
      | none => rw [hx] at this; exact absurd this (by simp)
      | some r => simp

/-- The character count never exceeds the byte count. -/
theorem length_le_utf8Len (l : List Char) : l.length ≤ utf8Len l := by
  induction l with
  | nil => simp [utf8Len]
  | cons c t ih =>
    have := Char.utf8Size_pos c
    simp only [utf8Len, List.map_cons, List.sum_cons, List.length_cons]
    simp only [utf8Len] at ih
    omega

/-- On all-ASCII input the byte count equals the character count. -/
theorem utf8Len_ascii (l : List Char) (h : ∀ c ∈ l, c.utf8Size = 1) :
    utf8Len l = l.length := by
  induction l with
  | nil => simp [utf8Len]
  | cons c t ih =>
    simp only [utf8Len, List.map_cons, List.sum_cons, List.length_cons,
      h c (List.mem_cons_self c t)]
    simp only [utf8Len] at ih
    rw [ih (fun x hm => h x (List.mem_cons_of_mem c hm))]
    omega

/-- Characters of the after-last-slash suffix are characters of the input. -/
theorem mem_afterLastSlash (l : List Char) (c : Char)
    (h : c ∈ afterLastSlash l) : c ∈ l := by
  unfold afterLastSlash at h
  rw [List.mem_reverse] at h
  exact List.mem_reverse.mp ((List.takeWhile_prefix _).subset h)

/-- Whenever the fall-through tail of `extract_commit_hash` returns, the
result is at most 12 characters. -/
theorem extract_commit_hash_tail_length_le (s : String) (r : String)
    (h : extract_commit_hash_tail s = some r) : r.length ≤ 12 := by
  simp only [extract_commit_hash_tail] at h
  split at h
  · obtain ⟨r', hr', rfl⟩ := Option.map_eq_some'.mp h
    have := takeBytes_length_le s.data 7 r' hr'
    simpa using by omega
  · split at h
    · obtain ⟨r', hr', rfl⟩ := Option.map_eq_some'.mp h
      have := takeBytes_length_le s.data 12 r' hr'
      simpa using this
    · cases h
      have h1 : utf8Len s.data ≤ 12 := by omega
      have h2 := length_le_utf8Len s.data
      show s.data.length ≤ 12
      omega

/-- On all-ASCII input the fall-through tail always returns. -/
theorem extract_commit_hash_tail_isSome (s : String)
    (h : ∀ c ∈ s.data, c.utf8Size = 1) :
    (extract_commit_hash_tail s).isSome = true := by
  have hlen := utf8Len_ascii s.data h
  simp only [extract_commit_hash_tail]
  split
  · rename_i hcond
    rw [show ((takeBytes 7 s.data).map List.asString).isSome =
        (takeBytes 7 s.data).isSome from by cases takeBytes 7 s.data <;> rfl]
    exact takeBytes_isSome s.data 7 h (by omega)
  · split
    · rename_i hcond2
      rw [show ((takeBytes 12 s.data).map List.asString).isSome =
          (takeBytes 12 s.data).isSome from by cases takeBytes 12 s.data <;> rfl]
      exact takeBytes_isSome s.data 12 h (by omega)
    · rfl

/-- C10 amended: whenever `extract_commit_hash` returns (does not panic) its
result is at most 12 characters long, and on every all-ASCII input —
including strings shorter than 7 characters and strings without `/` — it
returns without panicking; it can panic (Rust byte-slicing off a character
boundary) on some multi-byte inputs. -/
theorem c10_extract_commit_hash (s : String) :
    (∀ r, extract_commit_hash s = some r → r.length ≤ 12) ∧
    ((∀ c ∈ s.data, c.utf8Size = 1) → (extract_commit_hash s).isSome = true) := by
  constructor
  · intro r h
    simp only [extract_commit_hash] at h
    split at h
    · split at h
      · obtain ⟨r', hr', rfl⟩ := Option.map_eq_some'.mp h
        have := takeBytes_length_le _ 7 r' hr'
        simpa using by omega
      · exact extract_commit_hash_tail_length_le s r h
    · exact extract_commit_hash_tail_length_le s r h
  · intro h
    simp only [extract_commit_hash]
    split
    · split
      · rename_i hcond
        have hsub : ∀ c ∈ afterLastSlash s.data, c.utf8Size = 1 :=
          fun c hm => h c (mem_afterLastSlash s.data c hm)
        rw [show ((takeBytes 7 (afterLastSlash s.data)).map List.asString).isSome =
            (takeBytes 7 (afterLastSlash s.data)).isSome from by
          cases takeBytes 7 (afterLastSlash s.data) <;> rfl]
        refine takeBytes_isSome _ 7 hsub ?_
        have := utf8Len_ascii (afterLastSlash s.data) hsub
        omega
      · exact extract_commit_hash_tail_isSome s h
    · exact extract_commit_hash_tail_isSome s h

/-- Witness for the amended C10: a real GitHub ref is shortened to 7
characters (within the 12-character bound), and a short ASCII tag returns
without panicking. -/
theorem c10_extract_commit_hash_witness :
    extract_commit_hash "github:NixOS/nixpkgs/abc123def456789" = some "abc123d" ∧
    ("abc123d" : String).length ≤ 12 ∧
    (∀ c ∈ ("v1.2.3" : String).data, c.utf8Size = 1) ∧
    (extract_commit_hash "v1.2.3").isSome = true :=
  ⟨by decide,
   (c10_extract_commit_hash "github:NixOS/nixpkgs/abc123def456789").1
     "abc123d" (by decide),
   by decide,
   (c10_extract_commit_hash "v1.2.3").2 (by decide)⟩
